import Mathlib

/-!
# Verification of the TARIFF_CALC power-consumption tracker

Shallow embedding of `BEE PROJECT/app.py` (Flask + SQLAlchemy household
power-consumption tracker).  Python floats are modelled exactly as rationals
(`ℚ`); the database tables are modelled as lists of records kept in insertion
order (the order SQLAlchemy returns rows when no ordering is requested);
Python dicts are modelled as insertion-ordered association lists, matching
CPython's guaranteed key order.
-/

namespace TariffCalc

/-- `Appliance` table (app.py lines 26-38): id, name, power_watts.
`created_at` carries no logic and is omitted. -/
structure Appliance where
  id : Nat
  name : String
  power_watts : ℚ
deriving DecidableEq, Repr

/-- `DailyConsumption` table (app.py lines 40-46). -/
structure DailyConsumption where
  id : Nat
  date : String
  appliance_id : Nat
  hours_used : ℚ
  consumption_kwh : ℚ
deriving DecidableEq, Repr

/-- One entry of the static `COUNTRY_DATA` table (app.py lines 12-23). -/
structure CountryInfo where
  voltage : Nat
  frequency : Nat
  cost_per_kwh : ℚ
deriving DecidableEq, Repr

/-- The persistent store: the two live tables plus the autoincrement
counters SQLAlchemy keeps for the integer primary keys.
(`MonthlySummary` is never written or read by any handler and is omitted.) -/
structure DB where
  appliances : List Appliance
  daily_consumptions : List DailyConsumption
  nextApplianceId : Nat
  nextDailyId : Nat
deriving DecidableEq, Repr

/-! ## Python dict model: insertion-ordered association list -/

/-- `m[k]` / `m.get(k)` on a Python dict: first (and only) binding of `k`. -/
def dictLookup [DecidableEq κ] (m : List (κ × α)) (k : κ) : Option α :=
  match m with
  | [] => none
  | (k', v) :: rest => if k' = k then some v else dictLookup rest k

/-- `m[k] = v` on a Python dict: overwrite in place if the key is present,
append otherwise (CPython keeps insertion order). -/
def dictSet [DecidableEq κ] (m : List (κ × α)) (k : κ) (v : α) : List (κ × α) :=
  match m with
  | [] => [(k, v)]
  | (k', v') :: rest => if k' = k then (k, v) :: rest else (k', v') :: dictSet rest k v

/-- `COUNTRY_DATA` (app.py lines 12-23). -/
def COUNTRY_DATA : List (String × CountryInfo) :=
  [("USA", ⟨120, 60, 0.15⟩),
   ("Canada", ⟨120, 60, 0.12⟩),
   ("UK", ⟨230, 50, 0.22⟩),
   ("Germany", ⟨230, 50, 0.35⟩),
   ("France", ⟨230, 50, 0.19⟩),
   ("Australia", ⟨230, 50, 0.25⟩),
   ("Japan", ⟨100, 50, 0.26⟩),
   ("India", ⟨230, 50, 0.08⟩),
   ("China", ⟨220, 50, 0.10⟩),
   ("Brazil", ⟨127, 60, 0.18⟩)]

/-! ## Request handlers -/

/-- POST `/appliance-setup` (app.py lines 71-79): parses the form and adds the
appliance unconditionally — the source performs no validation of
`power_watts` beyond `float(...)` parsing, which we assume succeeded. -/
def appliance_setup_post (db : DB) (name : String) (power_watts : ℚ) : DB :=
  { db with
      appliances := db.appliances ++ [⟨db.nextApplianceId, name, power_watts⟩],
      nextApplianceId := db.nextApplianceId + 1 }

/-- HTTP outcome of `delete_appliance`. -/
inductive DeleteResponse where
  | redirect
  | notFound
deriving DecidableEq, Repr

/-- GET `/delete-appliance/<id>` (app.py lines 87-92).  `get_or_404` aborts
with 404 when the id is absent, leaving the store untouched; otherwise the
appliance is deleted and, by the `cascade="all, delete-orphan"` relationship
(lines 33-38), every `DailyConsumption` row referencing it is deleted too. -/
def delete_appliance (db : DB) (appliance_id : Nat) : DeleteResponse × DB :=
  match db.appliances.find? (fun a => a.id = appliance_id) with
  | none => (DeleteResponse.notFound, db)
  | some _ =>
      (DeleteResponse.redirect,
       { db with
           appliances := db.appliances.filter (fun a => a.id ≠ appliance_id),
           daily_consumptions :=
             db.daily_consumptions.filter (fun dc => dc.appliance_id ≠ appliance_id) })

/-- `float(request.form.get(f'hours_{id}', 0))` (app.py line 107): a field
absent from the form defaults to 0.  The form is modelled as an association
list from appliance id to the already-parsed numeric value. -/
def getFormHours (form : List (Nat × ℚ)) (appliance_id : Nat) : ℚ :=
  (dictLookup form appliance_id).getD 0

/-- The row predicate of `DailyConsumption.query.filter_by(date=.., appliance_id=..)`. -/
def isPairB (d : String) (aid : Nat) (dc : DailyConsumption) : Bool :=
  dc.date = d && dc.appliance_id = aid

/-- The mutation of app.py lines 117-118: overwrite `hours_used` and
`consumption_kwh`, leaving `id`, `date` and `appliance_id` alone. -/
def setHK (h k : ℚ) (dc : DailyConsumption) : DailyConsumption :=
  { dc with hours_used := h, consumption_kwh := k }

/-- In-place update of the `.first()` matching row (app.py lines 116-118):
only the first row matching the (date, appliance_id) filter has its
`hours_used` and `consumption_kwh` overwritten. -/
def updateFirst (dcs : List DailyConsumption) (d : String) (aid : Nat)
    (h k : ℚ) : List DailyConsumption :=
  match dcs with
  | [] => []
  | dc :: rest =>
      if isPairB d aid dc then setHK h k dc :: rest
      else dc :: updateFirst rest d aid h k

/-- One iteration of the per-appliance loop of the POST branch of
`/daily-input` (app.py lines 106-126), acting on the pending row list and the
autoincrement counter. -/
def dailyStep (date_str : String) (form : List (Nat × ℚ))
    (st : List DailyConsumption × Nat) (a : Appliance) :
    List DailyConsumption × Nat :=
  let hours_used := getFormHours form a.id
  if 0 < hours_used then
    let consumption_kwh := a.power_watts * hours_used / 1000
    if (st.1.find? (isPairB date_str a.id)).isSome then
      (updateFirst st.1 date_str a.id hours_used consumption_kwh, st.2)
    else
      (st.1 ++ [⟨st.2, date_str, a.id, hours_used, consumption_kwh⟩], st.2 + 1)
  else st

/-- POST `/daily-input` (app.py lines 94-129).  With no registered appliance
the handler redirects to setup without touching the store; otherwise it runs
the upsert loop over all appliances and commits. -/
def daily_input_post (db : DB) (date_str : String) (form : List (Nat × ℚ)) : DB :=
  if db.appliances.isEmpty then db
  else
    let st := db.appliances.foldl (dailyStep date_str form)
      (db.daily_consumptions, db.nextDailyId)
    { db with daily_consumptions := st.1, nextDailyId := st.2 }

/-! ## Aggregation (monthly_results, daily_analysis) -/

/-- `DailyConsumption.date.like(f"{month}-%")` (app.py lines 155-157):
the date string starts with `month ++ "-"`. -/
def likeMonth (month : String) (date : String) : Bool :=
  List.isPrefixOf (month ++ "-").data date.data

/-- The month's rows: `daily_consumptions` filtered by the LIKE pattern. -/
def monthFilter (dcs : List DailyConsumption) (month : String) :
    List DailyConsumption :=
  dcs.filter (fun dc => likeMonth month dc.date)

/-- `set([dc.date for dc in daily_consumptions])` (app.py line 168).  A Python
set iterates in unspecified order; we fix first-occurrence order.  Every
result proved below is independent of this choice: each date's entry in
`daily_max_consumers` depends only on that date's rows, and `monthly_totals`
is an order-insensitive sum. -/
def distinctDates (dcs : List DailyConsumption) : List String :=
  dcs.foldl (fun acc dc => if dc.date ∈ acc then acc else acc ++ [dc.date]) []

/-- `[dc for dc in daily_consumptions if dc.date == date]` (app.py line 170). -/
def dayRows (dcs : List DailyConsumption) (d : String) : List DailyConsumption :=
  dcs.filter (fun dc => dc.date = d)

/-- `appliance_map[dc.appliance_id].name` (app.py line 175).  Python raises
`KeyError` when the id is unregistered; the theorems below are stated for
states whose rows all reference registered appliances, where the `""`
default is never reached. -/
def applianceName (apps : List Appliance) (i : Nat) : String :=
  ((apps.find? (fun a => a.id = i)).map (fun a => a.name)).getD ""

/-- `monthly_totals[appliance.name] = 0` initialisation loop
(app.py lines 165-166). -/
def initTotals (apps : List Appliance) : List (String × ℚ) :=
  apps.foldl (fun m a => dictSet m a.name 0) []

/-- State of the inner per-day loop of `monthly_results`
(app.py lines 171-180): the running totals dict and the running day maximum. -/
structure DayState where
  monthly_totals : List (String × ℚ)
  day_max_consumption : ℚ
  day_max_appliance : String
deriving DecidableEq, Repr

/-- One iteration of the inner loop of `monthly_results`
(app.py lines 174-180). -/
def dayStep (apps : List Appliance) (st : DayState) (dc : DailyConsumption) :
    DayState :=
  let appliance_name := applianceName apps dc.appliance_id
  let totals := dictSet st.monthly_totals appliance_name
    ((dictLookup st.monthly_totals appliance_name).getD 0 + dc.consumption_kwh)
  if dc.consumption_kwh > st.day_max_consumption then
    { monthly_totals := totals,
      day_max_consumption := dc.consumption_kwh,
      day_max_appliance := appliance_name }
  else
    { monthly_totals := totals,
      day_max_consumption := st.day_max_consumption,
      day_max_appliance := st.day_max_appliance }

/-- Accumulated outputs of the date loop of `monthly_results`. -/
structure MonthAgg where
  monthly_totals : List (String × ℚ)
  daily_max_consumers : List (String × (String × ℚ))
deriving DecidableEq, Repr

/-- Body of the date loop of `monthly_results` (app.py lines 169-182). -/
def processDate (apps : List Appliance) (dcs : List DailyConsumption)
    (agg : MonthAgg) (date : String) : MonthAgg :=
  let day_consumptions := dayRows dcs date
  let st := day_consumptions.foldl (dayStep apps)
    ⟨agg.monthly_totals, 0, ""⟩
  { monthly_totals := st.monthly_totals,
    daily_max_consumers :=
      dictSet agg.daily_max_consumers date (st.day_max_appliance, st.day_max_consumption) }

/-- `sum(monthly_totals.values())` (app.py line 184). -/
def sumValues (m : List (String × ℚ)) : ℚ := (m.map (fun p => p.2)).sum

/-- The aggregation core of `/monthly-results` (app.py lines 155-184):
returns the `MonthAgg` and `total_monthly_kwh`. -/
def monthly_results_agg (apps : List Appliance) (dcs : List DailyConsumption)
    (month : String) : MonthAgg × ℚ :=
  let daily_consumptions := monthFilter dcs month
  let agg := (distinctDates daily_consumptions).foldl
    (processDate apps daily_consumptions)
    ⟨initTotals apps, []⟩
  (agg, sumValues agg.monthly_totals)

/-- Rendered output of `/monthly-results`. -/
structure MonthlyReport where
  month : String
  country : String
  total_kwh : ℚ
  total_cost : ℚ
  carbon_footprint : ℚ
  monthly_totals : List (String × ℚ)
  daily_max_consumers : List (String × (String × ℚ))
deriving DecidableEq, Repr

/-- GET `/monthly-results` (app.py lines 150-202).  The aggregation runs
first; `COUNTRY_DATA[country]` (line 185) raises an unhandled `KeyError` for
an unknown country — modelled as `none` (no report is rendered). -/
def monthly_results (db : DB) (month country : String) : Option MonthlyReport :=
  let p := monthly_results_agg db.appliances db.daily_consumptions month
  match dictLookup COUNTRY_DATA country with
  | none => none
  | some cd =>
      let total_monthly_kwh := p.2
      some { month := month
             country := country
             total_kwh := total_monthly_kwh
             total_cost := total_monthly_kwh * cd.cost_per_kwh
             carbon_footprint := total_monthly_kwh * 0.5
             monthly_totals := p.1.monthly_totals
             daily_max_consumers := p.1.daily_max_consumers }

/-- One iteration of the running-maximum comparison shared by
`monthly_results` (app.py lines 178-180) and `daily_analysis`
(lines 224-226): the accumulator is the (day_max_appliance,
day_max_consumption) pair. -/
def maxStep (apps : List Appliance) (acc : String × ℚ) (dc : DailyConsumption) :
    String × ℚ :=
  if dc.consumption_kwh > acc.2 then
    (applianceName apps dc.appliance_id, dc.consumption_kwh)
  else acc

/-- The per-day maximum loop of `daily_analysis` (app.py lines 218-226),
identical to the maximum component of `dayStep` but with no totals dict. -/
def dayMaxFold (apps : List Appliance) (rows : List DailyConsumption) :
    String × ℚ :=
  rows.foldl (maxStep apps) ("", 0)

/-- `daily_max_consumers` as computed by `/daily-analysis`
(app.py lines 208-228). -/
def daily_analysis_dmc (apps : List Appliance) (dcs : List DailyConsumption)
    (month : String) : List (String × (String × ℚ)) :=
  let daily_consumptions := monthFilter dcs month
  (distinctDates daily_consumptions).foldl
    (fun m date => dictSet m date (dayMaxFold apps (dayRows daily_consumptions date)))
    []

/-- `appliance_days` loop of `daily_analysis` (app.py lines 230-232):
counts, per appliance name, the days it was the daily maximum. -/
def appliance_days_of (dmc : List (String × (String × ℚ))) : List (String × Nat) :=
  dmc.foldl (fun m p => dictSet m p.2.1 ((dictLookup m p.2.1).getD 0 + 1)) []

/-- `most_frequent_max` (app.py line 234): Python `max(items, key=count)`
keeps the first-encountered maximal entry; the empty dict yields `(None, 0)`. -/
def most_frequent_max (appliance_days : List (String × Nat)) :
    Option String × Nat :=
  match appliance_days with
  | [] => (none, 0)
  | x :: xs =>
      let best := xs.foldl (fun b p => if p.2 > b.2 then p else b) x
      (some best.1, best.2)

/-! ## Derived state predicates -/

/-- Number of stored rows for one (date, appliance_id) pair. -/
def countPair (dcs : List DailyConsumption) (d : String) (aid : Nat) : Nat :=
  (dcs.filter (isPairB d aid)).length

/-- The upsert invariant: at most one row per (date, appliance_id) pair. -/
def AtMostOnePerPair (dcs : List DailyConsumption) : Prop :=
  ∀ d aid, countPair dcs d aid ≤ 1

/-- Every row of `dcs` references an appliance of `apps` and its
`consumption_kwh` is the write-time formula `power_watts * hours_used / 1000`
for that appliance. -/
def RowsOK (apps : List Appliance) (dcs : List DailyConsumption) : Prop :=
  ∀ dc ∈ dcs, ∃ a ∈ apps,
    a.id = dc.appliance_id ∧
    dc.consumption_kwh = a.power_watts * dc.hours_used / 1000

/-- Every stored row references a registered appliance and its
`consumption_kwh` is the write-time formula `power_watts * hours_used / 1000`
for that appliance. -/
def WellFormed (db : DB) : Prop :=
  RowsOK db.appliances db.daily_consumptions

/-! ## Dictionary lemmas -/

theorem dictLookup_dictSet_self [DecidableEq κ] (m : List (κ × α)) (k : κ) (v : α) :
    dictLookup (dictSet m k v) k = some v := by
  induction m with
  | nil => simp [dictSet, dictLookup]
  | cons q rest ih =>
      obtain ⟨k', v'⟩ := q
      by_cases h : k' = k
      · simp [dictSet, dictLookup, h]
      · simp [dictSet, dictLookup, h, ih]

theorem dictLookup_dictSet_ne [DecidableEq κ] (m : List (κ × α)) (k k' : κ) (v : α)
    (h : k' ≠ k) : dictLookup (dictSet m k v) k' = dictLookup m k' := by
  have hkk : ¬k = k' := fun hh => h hh.symm
  induction m with
  | nil => simp only [dictSet, dictLookup, if_neg hkk]
  | cons q rest ih =>
      obtain ⟨k₀, v₀⟩ := q
      by_cases hk : k₀ = k
      · subst hk
        simp only [dictSet, if_pos rfl, dictLookup, if_neg hkk]
      · by_cases hk' : k₀ = k'
        · simp only [dictSet, if_neg hk, dictLookup, if_pos hk']
        · simp only [dictSet, if_neg hk, dictLookup, if_neg hk', ih]

theorem mem_dictSet [DecidableEq κ] (m : List (κ × α)) (k : κ) (v : α) (p : κ × α)
    (hp : p ∈ dictSet m k v) : p ∈ m ∨ p = (k, v) := by
  induction m with
  | nil =>
      simp only [dictSet, List.mem_singleton] at hp
      exact Or.inr hp
  | cons q rest ih =>
      obtain ⟨k₀, v₀⟩ := q
      by_cases hk : k₀ = k
      · subst hk
        simp only [dictSet, if_pos rfl, if_true, List.mem_cons] at hp
        rcases hp with h1 | h1
        · exact Or.inr h1
        · exact Or.inl (List.mem_cons_of_mem _ h1)
      · simp only [dictSet, if_neg hk, List.mem_cons] at hp
        rcases hp with h1 | h1
        · exact Or.inl (by rw [h1]; exact List.mem_cons_self _ _)
        · rcases ih h1 with h2 | h2
          · exact Or.inl (List.mem_cons_of_mem _ h2)
          · exact Or.inr h2

theorem dictLookup_dictSet_isSome [DecidableEq κ] (m : List (κ × α)) (k k' : κ)
    (v : α) (h : (dictLookup m k').isSome) :
    (dictLookup (dictSet m k v) k').isSome := by
  by_cases hk : k' = k
  · subst hk
    rw [dictLookup_dictSet_self]
    rfl
  · rw [dictLookup_dictSet_ne _ _ _ _ hk]
    exact h

theorem dictLookup_eq_none_iff [DecidableEq κ] (m : List (κ × α)) (k : κ) :
    dictLookup m k = none ↔ k ∉ m.map Prod.fst := by
  induction m with
  | nil => simp [dictLookup]
  | cons q rest ih =>
      obtain ⟨k₀, v₀⟩ := q
      by_cases hk : k₀ = k
      · subst hk
        simp [dictLookup]
      · simp [dictLookup, hk, ih, Ne.symm hk]

/-! ## find? / filter bridging -/

theorem find?_eq_head?_filter (p : α → Bool) (l : List α) :
    l.find? p = (l.filter p).head? := by
  induction l with
  | nil => rfl
  | cons a l ih =>
      cases h : p a
      · rw [List.find?_cons_of_neg _ (by simp [h]), List.filter_cons_of_neg (by simp [h]), ih]
      · rw [List.find?_cons_of_pos _ h, List.filter_cons_of_pos h, List.head?_cons]

/-! ## initTotals lemmas -/

theorem initTotals_aux_values (apps : List Appliance) (m : List (String × ℚ))
    (hm : ∀ p ∈ m, p.2 = 0) :
    ∀ p ∈ apps.foldl (fun m a => dictSet m a.name 0) m, p.2 = 0 := by
  induction apps generalizing m with
  | nil => simpa using hm
  | cons a apps ih =>
      intro p hp
      refine ih (dictSet m a.name 0) ?_ p hp
      intro q hq
      rcases mem_dictSet _ _ _ _ hq with h | h
      · exact hm q h
      · rw [h]

theorem initTotals_values (apps : List Appliance) :
    ∀ p ∈ initTotals apps, p.2 = 0 :=
  initTotals_aux_values apps [] (by simp)

theorem initTotals_aux_lookup_isSome (apps : List Appliance) (m : List (String × ℚ))
    (a : Appliance) (ha : a ∈ apps ∨ (dictLookup m a.name).isSome) :
    (dictLookup (apps.foldl (fun m a => dictSet m a.name 0) m) a.name).isSome := by
  induction apps generalizing m with
  | nil =>
      rcases ha with h | h
      · simp at h
      · simpa using h
  | cons b apps ih =>
      rcases ha with h | h
      · rcases List.mem_cons.1 h with h | h
        · refine ih (dictSet m b.name 0) (Or.inr ?_)
          rw [h, dictLookup_dictSet_self]
          rfl
        · exact ih (dictSet m b.name 0) (Or.inl h)
      · exact ih (dictSet m b.name 0) (Or.inr (dictLookup_dictSet_isSome _ _ _ _ h))

theorem dictLookup_mem [DecidableEq κ] (m : List (κ × α)) (k : κ) (v : α)
    (hv : dictLookup m k = some v) : (k, v) ∈ m := by
  induction m with
  | nil => simp [dictLookup] at hv
  | cons q rest ih =>
      obtain ⟨k₀, v₀⟩ := q
      by_cases hk : k₀ = k
      · subst hk
        simp only [dictLookup, if_pos rfl, if_true, Option.some.injEq] at hv
        rw [List.mem_cons]
        exact Or.inl (by rw [hv])
      · simp only [dictLookup, if_neg hk] at hv
        exact List.mem_cons_of_mem _ (ih hv)

theorem initTotals_lookup (apps : List Appliance) (a : Appliance) (ha : a ∈ apps) :
    dictLookup (initTotals apps) a.name = some 0 := by
  have hs : (dictLookup (initTotals apps) a.name).isSome :=
    initTotals_aux_lookup_isSome apps [] a (Or.inl ha)
  obtain ⟨v, hv⟩ := Option.isSome_iff_exists.1 hs
  have hmem : (a.name, v) ∈ initTotals apps := dictLookup_mem _ _ _ hv
  have hz := initTotals_values apps _ hmem
  simp only at hz
  rw [hv, hz]

theorem sumValues_initTotals (apps : List Appliance) :
    sumValues (initTotals apps) = 0 := by
  refine List.sum_eq_zero ?_
  intro x hx
  rcases List.mem_map.1 hx with ⟨p, hp, rfl⟩
  exact initTotals_values apps p hp

/-! ## daily_input lemmas -/

theorem isPairB_setHK (d : String) (aid : Nat) (h k : ℚ) (dc : DailyConsumption) :
    isPairB d aid (setHK h k dc) = isPairB d aid dc := rfl

theorem isPairB_eq_true_iff (d : String) (aid : Nat) (dc : DailyConsumption) :
    isPairB d aid dc = true ↔ dc.date = d ∧ dc.appliance_id = aid := by
  simp [isPairB]

theorem isPairB_eq_false_of_aid (d : String) (aid : Nat) (dc : DailyConsumption)
    (h : dc.appliance_id ≠ aid) : isPairB d aid dc = false := by
  simp [isPairB, h]

theorem updateFirst_filter_frame (P : DailyConsumption → Bool)
    (l : List DailyConsumption) (d : String) (aid : Nat) (h k : ℚ)
    (hP : ∀ dc, isPairB d aid dc = true → P dc = false) :
    (updateFirst l d aid h k).filter P = l.filter P := by
  induction l with
  | nil => rfl
  | cons dc rest ih =>
      by_cases hdc : isPairB d aid dc
      · have h1 : P dc = false := hP dc hdc
        have h2 : P (setHK h k dc) = false := hP _ ((isPairB_setHK d aid h k dc).symm ▸ hdc)
        simp only [updateFirst, if_pos hdc]
        rw [List.filter_cons_of_neg (by simp [h2]), List.filter_cons_of_neg (by simp [h1])]
      · have hdc' : isPairB d aid dc = false := by
          cases hb : isPairB d aid dc
          · rfl
          · exact absurd hb hdc
        simp only [updateFirst, if_neg hdc]
        by_cases hp : P dc
        · rw [List.filter_cons_of_pos hp, List.filter_cons_of_pos hp, ih]
        · rw [List.filter_cons_of_neg hp, List.filter_cons_of_neg hp, ih]

theorem updateFirst_filter_self (l : List DailyConsumption) (d : String)
    (aid : Nat) (h k : ℚ) :
    (updateFirst l d aid h k).filter (isPairB d aid) =
      match l.filter (isPairB d aid) with
      | [] => []
      | dc :: rest => setHK h k dc :: rest := by
  induction l with
  | nil => rfl
  | cons dc rest ih =>
      by_cases hdc : isPairB d aid dc
      · simp only [updateFirst, if_pos hdc]
        rw [List.filter_cons_of_pos (by rw [isPairB_setHK]; exact hdc),
            List.filter_cons_of_pos hdc]
      · simp only [updateFirst, if_neg hdc]
        rw [List.filter_cons_of_neg hdc, List.filter_cons_of_neg hdc, ih]

theorem dailyStep_nonpos (date_str : String) (form : List (Nat × ℚ))
    (st : List DailyConsumption × Nat) (a : Appliance)
    (h : getFormHours form a.id ≤ 0) :
    dailyStep date_str form st a = st := by
  simp only [dailyStep]
  rw [if_neg (not_lt.2 h)]

theorem dailyStep_filter_frame (date_str : String) (form : List (Nat × ℚ))
    (st : List DailyConsumption × Nat) (a : Appliance)
    (P : DailyConsumption → Bool)
    (hP : ∀ dc, isPairB date_str a.id dc = true → P dc = false) :
    (dailyStep date_str form st a).1.filter P = st.1.filter P := by
  by_cases hpos : 0 < getFormHours form a.id
  · simp only [dailyStep, if_pos hpos]
    by_cases hex : (st.1.find? (isPairB date_str a.id)).isSome
    · simp only [if_pos hex]
      exact updateFirst_filter_frame P st.1 _ _ _ _ hP
    · simp only [if_neg hex]
      rw [List.filter_append]
      have hnew : P ⟨st.2, date_str, a.id, getFormHours form a.id,
          a.power_watts * getFormHours form a.id / 1000⟩ = false :=
        hP _ (by simp [isPairB])
      simp [hnew]
  · rw [dailyStep_nonpos _ _ _ _ (not_lt.1 hpos)]

theorem dailyStep_filter_self (date_str : String) (form : List (Nat × ℚ))
    (st : List DailyConsumption × Nat) (a : Appliance)
    (hpos : 0 < getFormHours form a.id)
    (hle : countPair st.1 date_str a.id ≤ 1) :
    ∃ i, (dailyStep date_str form st a).1.filter (isPairB date_str a.id) =
      [⟨i, date_str, a.id, getFormHours form a.id,
        a.power_watts * getFormHours form a.id / 1000⟩] := by
  simp only [dailyStep, if_pos hpos]
  by_cases hex : (st.1.find? (isPairB date_str a.id)).isSome
  · simp only [if_pos hex]
    rw [find?_eq_head?_filter] at hex
    cases hfl : st.1.filter (isPairB date_str a.id) with
    | nil => rw [hfl] at hex; simp at hex
    | cons x0 t =>
        have ht : t = [] := by
          have hc := hle
          unfold countPair at hc
          rw [hfl] at hc
          simp only [List.length_cons] at hc
          exact List.length_eq_zero.1 (by omega)
        subst ht
        have hx0 : isPairB date_str a.id x0 = true := by
          have hm : x0 ∈ st.1.filter (isPairB date_str a.id) := by
            rw [hfl]; exact List.mem_cons_self _ _
          exact (List.mem_filter.1 hm).2
        rw [isPairB_eq_true_iff] at hx0
        refine ⟨x0.id, ?_⟩
        rw [updateFirst_filter_self, hfl]
        simp only [setHK]
        cases x0 with
        | mk i0 d0 aid0 h0 k0 =>
            simp only at hx0
            simp [hx0.1, hx0.2]
  · simp only [if_neg hex]
    rw [List.filter_append]
    have hfl : st.1.filter (isPairB date_str a.id) = [] := by
      rw [find?_eq_head?_filter] at hex
      cases hf : st.1.filter (isPairB date_str a.id) with
      | nil => rfl
      | cons x t => rw [hf] at hex; simp at hex
    rw [hfl]
    refine ⟨st.2, ?_⟩
    simp [List.filter, isPairB]

theorem foldl_dailyStep_filter_frame (date_str : String) (form : List (Nat × ℚ))
    (l : List Appliance) (st : List DailyConsumption × Nat)
    (P : DailyConsumption → Bool)
    (hP : ∀ a ∈ l, ∀ dc, isPairB date_str a.id dc = true → P dc = false) :
    ((l.foldl (dailyStep date_str form) st).1).filter P = st.1.filter P := by
  induction l generalizing st with
  | nil => rfl
  | cons a l ih =>
      rw [List.foldl_cons, ih _ (fun a' ha' => hP a' (List.mem_cons_of_mem _ ha')),
          dailyStep_filter_frame _ _ _ _ _ (hP a (List.mem_cons_self _ _))]

theorem dailyStep_countPair_le (date_str : String) (form : List (Nat × ℚ))
    (st : List DailyConsumption × Nat) (a : Appliance)
    (hle : AtMostOnePerPair st.1) :
    AtMostOnePerPair (dailyStep date_str form st a).1 := by
  intro d aid
  by_cases hpair : d = date_str ∧ aid = a.id
  · obtain ⟨rfl, rfl⟩ := hpair
    by_cases hpos : 0 < getFormHours form a.id
    · obtain ⟨i, hi⟩ := dailyStep_filter_self d form st a hpos (hle d a.id)
      unfold countPair
      rw [hi]
      simp
    · rw [dailyStep_nonpos _ _ _ _ (not_lt.1 hpos)]
      exact hle d a.id
  · unfold countPair
    rw [dailyStep_filter_frame]
    · exact hle d aid
    · intro dc hdc
      cases hb : isPairB d aid dc
      · rfl
      · exfalso
        rw [isPairB_eq_true_iff] at hdc hb
        exact hpair ⟨hb.1.symm.trans hdc.1, hb.2.symm.trans hdc.2⟩

theorem foldl_dailyStep_atMostOne (date_str : String) (form : List (Nat × ℚ))
    (l : List Appliance) (st : List DailyConsumption × Nat)
    (hle : AtMostOnePerPair st.1) :
    AtMostOnePerPair ((l.foldl (dailyStep date_str form) st).1) := by
  induction l generalizing st with
  | nil => exact hle
  | cons a l ih =>
      rw [List.foldl_cons]
      exact ih _ (dailyStep_countPair_le _ _ _ _ hle)

theorem nodup_split_ids (l1 l2 : List Appliance) (a : Appliance)
    (hids : (((l1 ++ a :: l2).map (fun x => x.id))).Nodup) :
    (∀ b ∈ l1, b.id ≠ a.id) ∧ (∀ b ∈ l2, b.id ≠ a.id) := by
  rw [List.map_append, List.nodup_append] at hids
  constructor
  · intro b hb heq
    have hm1 : a.id ∈ List.map (fun x => x.id) l1 := by
      rw [← heq]
      exact List.mem_map_of_mem _ hb
    have hm2 : a.id ∈ List.map (fun x => x.id) (a :: l2) := by simp
    exact hids.2.2 hm1 hm2
  · have hn2 := hids.2.1
    rw [List.map_cons, List.nodup_cons] at hn2
    intro b hb heq
    have hm : a.id ∈ List.map (fun x => x.id) l2 := by
      rw [← heq]
      exact List.mem_map_of_mem _ hb
    exact hn2.1 hm

theorem foldl_dailyStep_self (date_str : String) (form : List (Nat × ℚ))
    (l : List Appliance) (st : List DailyConsumption × Nat) (a : Appliance)
    (hmem : a ∈ l) (hids : ((l.map (fun x => x.id))).Nodup)
    (hpos : 0 < getFormHours form a.id)
    (hle : countPair st.1 date_str a.id ≤ 1) :
    ∃ i, ((l.foldl (dailyStep date_str form) st).1).filter (isPairB date_str a.id) =
      [⟨i, date_str, a.id, getFormHours form a.id,
        a.power_watts * getFormHours form a.id / 1000⟩] := by
  obtain ⟨l1, l2, rfl⟩ := List.append_of_mem hmem
  obtain ⟨h1, h2⟩ := nodup_split_ids l1 l2 a hids
  rw [List.foldl_append, List.foldl_cons]
  have hfr1 : ((l1.foldl (dailyStep date_str form) st).1).filter (isPairB date_str a.id)
      = st.1.filter (isPairB date_str a.id) := by
    refine foldl_dailyStep_filter_frame date_str form l1 st _ ?_
    intro b hb dc hdc
    rw [isPairB_eq_true_iff] at hdc
    exact isPairB_eq_false_of_aid _ _ _ (by rw [hdc.2]; exact h1 b hb)
  have hle1 : countPair (l1.foldl (dailyStep date_str form) st).1 date_str a.id ≤ 1 := by
    unfold countPair
    rw [hfr1]
    exact hle
  obtain ⟨i, hi⟩ := dailyStep_filter_self date_str form _ a hpos hle1
  refine ⟨i, ?_⟩
  rw [foldl_dailyStep_filter_frame date_str form l2 _ _ ?_, hi]
  intro b hb dc hdc
  rw [isPairB_eq_true_iff] at hdc
  exact isPairB_eq_false_of_aid _ _ _ (by rw [hdc.2]; exact h2 b hb)

theorem daily_input_post_appliances (db : DB) (date_str : String)
    (form : List (Nat × ℚ)) :
    (daily_input_post db date_str form).appliances = db.appliances := by
  unfold daily_input_post
  split <;> rfl

theorem daily_input_post_daily (db : DB) (date_str : String)
    (form : List (Nat × ℚ)) (hne : db.appliances ≠ []) :
    (daily_input_post db date_str form).daily_consumptions =
      ((db.appliances.foldl (dailyStep date_str form)
        (db.daily_consumptions, db.nextDailyId)).1) := by
  unfold daily_input_post
  rw [if_neg]
  simp [List.isEmpty_iff, hne]

theorem mem_updateFirst (l : List DailyConsumption) (d : String) (aid : Nat)
    (h k : ℚ) (dc' : DailyConsumption) (hdc' : dc' ∈ updateFirst l d aid h k) :
    dc' ∈ l ∨ ∃ dc ∈ l, isPairB d aid dc = true ∧ dc' = setHK h k dc := by
  induction l with
  | nil => simp [updateFirst] at hdc'
  | cons dc rest ih =>
      by_cases hdc : isPairB d aid dc
      · simp only [updateFirst, if_pos hdc, List.mem_cons] at hdc'
        rcases hdc' with h1 | h1
        · exact Or.inr ⟨dc, List.mem_cons_self _ _, hdc, h1⟩
        · exact Or.inl (List.mem_cons_of_mem _ h1)
      · simp only [updateFirst, if_neg hdc, List.mem_cons] at hdc'
        rcases hdc' with h1 | h1
        · exact Or.inl (by rw [h1]; exact List.mem_cons_self _ _)
        · rcases ih h1 with h2 | ⟨dc0, hdc0, hp, he⟩
          · exact Or.inl (List.mem_cons_of_mem _ h2)
          · exact Or.inr ⟨dc0, List.mem_cons_of_mem _ hdc0, hp, he⟩

theorem dailyStep_rowsOK (apps : List Appliance) (date_str : String)
    (form : List (Nat × ℚ)) (st : List DailyConsumption × Nat) (a : Appliance)
    (ha : a ∈ apps) (hok : RowsOK apps st.1) :
    RowsOK apps (dailyStep date_str form st a).1 := by
  by_cases hpos : 0 < getFormHours form a.id
  · simp only [dailyStep, if_pos hpos]
    by_cases hex : (st.1.find? (isPairB date_str a.id)).isSome
    · simp only [if_pos hex]
      intro dc' hdc'
      rcases mem_updateFirst _ _ _ _ _ _ hdc' with h1 | ⟨dc0, _, hp, he⟩
      · exact hok dc' h1
      · rw [isPairB_eq_true_iff] at hp
        refine ⟨a, ha, ?_, ?_⟩
        · rw [he]
          simp [setHK, hp.2]
        · rw [he]
          simp [setHK]
    · simp only [if_neg hex]
      intro dc' hdc'
      rcases List.mem_append.1 hdc' with h1 | h1
      · exact hok dc' h1
      · rw [List.mem_singleton] at h1
        rw [h1]
        exact ⟨a, ha, rfl, rfl⟩
  · rw [dailyStep_nonpos _ _ _ _ (not_lt.1 hpos)]
    exact hok

theorem foldl_dailyStep_rowsOK (apps : List Appliance) (date_str : String)
    (form : List (Nat × ℚ)) (l : List Appliance) :
    ∀ st : List DailyConsumption × Nat, (∀ a ∈ l, a ∈ apps) → RowsOK apps st.1 →
      RowsOK apps ((l.foldl (dailyStep date_str form) st).1) := by
  induction l with
  | nil =>
      intro st _ hok
      exact hok
  | cons a l ih =>
      intro st hl hok
      rw [List.foldl_cons]
      exact ih _ (fun a' ha' => hl a' (List.mem_cons_of_mem _ ha'))
        (dailyStep_rowsOK apps date_str form st a (hl a (List.mem_cons_self _ _)) hok)

theorem daily_input_post_wellFormed (db : DB) (date_str : String)
    (form : List (Nat × ℚ)) (h : WellFormed db) :
    WellFormed (daily_input_post db date_str form) := by
  unfold WellFormed
  rw [daily_input_post_appliances]
  unfold daily_input_post
  split
  · exact h
  · exact foldl_dailyStep_rowsOK db.appliances date_str form db.appliances _
      (fun a ha => ha) h

theorem appliance_setup_post_wellFormed (db : DB) (n : String) (p : ℚ)
    (h : WellFormed db) : WellFormed (appliance_setup_post db n p) := by
  intro dc hdc
  obtain ⟨a, ha, h1, h2⟩ := h dc hdc
  exact ⟨a, List.mem_append_left _ ha, h1, h2⟩

theorem delete_appliance_wellFormed (db : DB) (i : Nat) (h : WellFormed db) :
    WellFormed (delete_appliance db i).2 := by
  unfold delete_appliance
  cases hf : db.appliances.find? (fun a => a.id = i) with
  | none => exact h
  | some a0 =>
      intro dc hdc
      simp only [List.mem_filter] at hdc
      obtain ⟨a, ha, h1, h2⟩ := h dc hdc.1
      refine ⟨a, ?_, h1, h2⟩
      simp only [List.mem_filter, ha, true_and]
      have : dc.appliance_id ≠ i := by
        simpa using hdc.2
      simp [h1, this]

theorem countPair_filter_le (dcs : List DailyConsumption)
    (q : DailyConsumption → Bool) (d : String) (aid : Nat) :
    countPair (dcs.filter q) d aid ≤ countPair dcs d aid := by
  unfold countPair
  have hs : (dcs.filter q).Sublist dcs := List.filter_sublist dcs
  exact (hs.filter (isPairB d aid)).length_le

theorem delete_appliance_atMostOne (db : DB) (i : Nat)
    (h : AtMostOnePerPair db.daily_consumptions) :
    AtMostOnePerPair (delete_appliance db i).2.daily_consumptions := by
  unfold delete_appliance
  cases hf : db.appliances.find? (fun a => a.id = i) with
  | none => exact h
  | some a0 =>
      intro d aid
      exact le_trans (countPair_filter_le _ _ _ _) (h d aid)

theorem daily_input_post_atMostOne (db : DB) (date_str : String)
    (form : List (Nat × ℚ)) (h : AtMostOnePerPair db.daily_consumptions) :
    AtMostOnePerPair (daily_input_post db date_str form).daily_consumptions := by
  unfold daily_input_post
  split
  · exact h
  · exact foldl_dailyStep_atMostOne date_str form db.appliances _ h

/-! ## Aggregation lemmas -/

theorem mem_distinctDates_aux (l : List DailyConsumption) :
    ∀ (acc : List String) (x : String),
      (x ∈ l.foldl (fun acc dc => if dc.date ∈ acc then acc else acc ++ [dc.date]) acc ↔
        x ∈ acc ∨ ∃ dc ∈ l, dc.date = x) := by
  induction l with
  | nil =>
      intro acc x
      simp
  | cons dc l ih =>
      intro acc x
      rw [List.foldl_cons]
      by_cases hd : dc.date ∈ acc
      · rw [if_pos hd, ih]
        constructor
        · rintro (h | ⟨dc0, h1, h2⟩)
          · exact Or.inl h
          · exact Or.inr ⟨dc0, List.mem_cons_of_mem _ h1, h2⟩
        · rintro (h | ⟨dc0, h1, h2⟩)
          · exact Or.inl h
          · rcases List.mem_cons.1 h1 with h3 | h3
            · subst h3
              exact Or.inl (h2 ▸ hd)
            · exact Or.inr ⟨dc0, h3, h2⟩
      · rw [if_neg hd, ih]
        constructor
        · rintro (h | ⟨dc0, h1, h2⟩)
          · rcases List.mem_append.1 h with h3 | h3
            · exact Or.inl h3
            · rw [List.mem_singleton] at h3
              exact Or.inr ⟨dc, List.mem_cons_self _ _, h3.symm⟩
          · exact Or.inr ⟨dc0, List.mem_cons_of_mem _ h1, h2⟩
        · rintro (h | ⟨dc0, h1, h2⟩)
          · exact Or.inl (List.mem_append_left _ h)
          · rcases List.mem_cons.1 h1 with h3 | h3
            · subst h3
              exact Or.inl (List.mem_append_right _ (by rw [h2]; exact List.mem_singleton_self _))
            · exact Or.inr ⟨dc0, h3, h2⟩

theorem mem_distinctDates (dcs : List DailyConsumption) (x : String) :
    x ∈ distinctDates dcs ↔ ∃ dc ∈ dcs, dc.date = x := by
  unfold distinctDates
  rw [mem_distinctDates_aux]
  simp

theorem distinctDates_nodup_aux (l : List DailyConsumption) :
    ∀ acc : List String, acc.Nodup →
      (l.foldl (fun acc dc => if dc.date ∈ acc then acc else acc ++ [dc.date]) acc).Nodup := by
  induction l with
  | nil =>
      intro acc h
      exact h
  | cons dc l ih =>
      intro acc h
      rw [List.foldl_cons]
      by_cases hd : dc.date ∈ acc
      · rw [if_pos hd]
        exact ih acc h
      · rw [if_neg hd]
        refine ih _ ?_
        rw [List.nodup_append]
        refine ⟨h, List.nodup_singleton _, ?_⟩
        intro x hx hx2
        rw [List.mem_singleton] at hx2
        exact hd (hx2 ▸ hx)

theorem distinctDates_nodup (dcs : List DailyConsumption) :
    (distinctDates dcs).Nodup :=
  distinctDates_nodup_aux dcs [] List.nodup_nil

theorem dayState_proj (apps : List Appliance) (rows : List DailyConsumption) :
    ∀ (totals : List (String × ℚ)) (v : ℚ) (n : String),
      ((rows.foldl (dayStep apps) ⟨totals, v, n⟩).day_max_appliance,
       (rows.foldl (dayStep apps) ⟨totals, v, n⟩).day_max_consumption) =
      rows.foldl (maxStep apps) (n, v) := by
  induction rows with
  | nil =>
      intro totals v n
      rfl
  | cons dc rows ih =>
      intro totals v n
      rw [List.foldl_cons, List.foldl_cons]
      by_cases hgt : dc.consumption_kwh > v
      · have h1 : dayStep apps ⟨totals, v, n⟩ dc =
            ⟨dictSet totals (applianceName apps dc.appliance_id)
              ((dictLookup totals (applianceName apps dc.appliance_id)).getD 0 + dc.consumption_kwh),
             dc.consumption_kwh, applianceName apps dc.appliance_id⟩ := by
          simp [dayStep, hgt]
        have h2 : maxStep apps (n, v) dc =
            (applianceName apps dc.appliance_id, dc.consumption_kwh) := by
          simp [maxStep, hgt]
        rw [h1, h2, ih]
      · have h1 : dayStep apps ⟨totals, v, n⟩ dc =
            ⟨dictSet totals (applianceName apps dc.appliance_id)
              ((dictLookup totals (applianceName apps dc.appliance_id)).getD 0 + dc.consumption_kwh),
             v, n⟩ := by
          simp [dayStep, hgt]
        have h2 : maxStep apps (n, v) dc = (n, v) := by
          simp [maxStep, hgt]
        rw [h1, h2, ih]

theorem foldl_maxStep_const (apps : List Appliance) (rows : List DailyConsumption) :
    ∀ acc : String × ℚ, (∀ dc ∈ rows, dc.consumption_kwh ≤ acc.2) →
      rows.foldl (maxStep apps) acc = acc := by
  induction rows with
  | nil =>
      intro acc _
      rfl
  | cons dc rows ih =>
      intro acc h
      rw [List.foldl_cons]
      have hstep : maxStep apps acc dc = acc := by
        simp only [maxStep]
        rw [if_neg (not_lt.2 (h dc (List.mem_cons_self _ _)))]
      rw [hstep]
      exact ih acc (fun dc' h' => h dc' (List.mem_cons_of_mem _ h'))

theorem foldl_maxStep_find (apps : List Appliance) (rows : List DailyConsumption)
    (m : ℚ) :
    ∀ acc : String × ℚ, (∀ dc ∈ rows, dc.consumption_kwh ≤ m) →
      ∀ dcw, rows.find? (fun dc => dc.consumption_kwh == m) = some dcw →
      acc.2 < m →
      rows.foldl (maxStep apps) acc = (applianceName apps dcw.appliance_id, m) := by
  induction rows with
  | nil =>
      intro acc _ dcw hfind _
      simp at hfind
  | cons dc rows ih =>
      intro acc hub dcw hfind hacc
      rw [List.foldl_cons]
      cases hb : (dc.consumption_kwh == m) with
      | true =>
          have hfc : List.find? (fun dc => dc.consumption_kwh == m) (dc :: rows) =
              some dc := List.find?_cons_of_pos _ hb
          rw [hfc, Option.some.injEq] at hfind
          have hdc : dc.consumption_kwh = m := by
            exact beq_iff_eq.1 hb
          have hstep : maxStep apps acc dc =
              (applianceName apps dc.appliance_id, dc.consumption_kwh) := by
            simp only [maxStep]
            rw [if_pos (by rw [hdc]; exact hacc)]
          rw [hstep, foldl_maxStep_const apps rows _ ?_]
          · rw [← hfind, hdc]
          · intro dc' h'
            rw [hdc]
            exact hub dc' (List.mem_cons_of_mem _ h')
      | false =>
          have hfc : List.find? (fun dc => dc.consumption_kwh == m) (dc :: rows) =
              List.find? (fun dc => dc.consumption_kwh == m) rows :=
            List.find?_cons_of_neg _ (by simp [hb])
          rw [hfc] at hfind
          have hlt : dc.consumption_kwh < m :=
            lt_of_le_of_ne (hub dc (List.mem_cons_self _ _)) (by simpa using hb)
          have hub' : ∀ dc' ∈ rows, dc'.consumption_kwh ≤ m :=
            fun dc' h' => hub dc' (List.mem_cons_of_mem _ h')
          by_cases hgt : dc.consumption_kwh > acc.2
          · have hstep : maxStep apps acc dc =
                (applianceName apps dc.appliance_id, dc.consumption_kwh) := by
              simp only [maxStep]
              rw [if_pos hgt]
            rw [hstep]
            exact ih _ hub' dcw hfind hlt
          · have hstep : maxStep apps acc dc = acc := by
              simp only [maxStep]
              rw [if_neg hgt]
            rw [hstep]
            exact ih acc hub' dcw hfind hacc

theorem processDate_dmc (apps : List Appliance) (dcs : List DailyConsumption)
    (agg : MonthAgg) (date : String) :
    (processDate apps dcs agg date).daily_max_consumers =
      dictSet agg.daily_max_consumers date (dayMaxFold apps (dayRows dcs date)) := by
  have h := dayState_proj apps (dayRows dcs date) agg.monthly_totals 0 ""
  unfold processDate dayMaxFold
  rw [← h]

theorem foldl_processDate_dmc_notmem (apps : List Appliance)
    (dcs : List DailyConsumption) (ds : List String) :
    ∀ (agg : MonthAgg) (d : String), d ∉ ds →
      dictLookup ((ds.foldl (processDate apps dcs) agg).daily_max_consumers) d =
      dictLookup agg.daily_max_consumers d := by
  induction ds with
  | nil =>
      intro agg d _
      rfl
  | cons d0 ds ih =>
      intro agg d hd
      rw [List.foldl_cons, ih _ _ (fun h => hd (List.mem_cons_of_mem _ h)),
          processDate_dmc, dictLookup_dictSet_ne]
      exact fun he => hd (he ▸ List.mem_cons_self _ _)

theorem foldl_processDate_dmc_mem (apps : List Appliance)
    (dcs : List DailyConsumption) (ds : List String) :
    ∀ (agg : MonthAgg) (d : String), ds.Nodup → d ∈ ds →
      dictLookup ((ds.foldl (processDate apps dcs) agg).daily_max_consumers) d =
      some (dayMaxFold apps (dayRows dcs d)) := by
  induction ds with
  | nil =>
      intro agg d _ h
      simp at h
  | cons d0 ds ih =>
      intro agg d hnd hd
      rw [List.foldl_cons]
      rw [List.nodup_cons] at hnd
      rcases List.mem_cons.1 hd with h1 | h1
      · subst h1
        rw [foldl_processDate_dmc_notmem apps dcs ds _ _ hnd.1,
            processDate_dmc, dictLookup_dictSet_self]
      · exact ih _ _ hnd.2 h1

theorem monthly_results_agg_dmc (apps : List Appliance)
    (dcs : List DailyConsumption) (month d : String)
    (hd : d ∈ distinctDates (monthFilter dcs month)) :
    dictLookup ((monthly_results_agg apps dcs month).1.daily_max_consumers) d =
      some (dayMaxFold apps (dayRows (monthFilter dcs month) d)) := by
  unfold monthly_results_agg
  exact foldl_processDate_dmc_mem apps (monthFilter dcs month) _ _ _
    (distinctDates_nodup _) hd

/-! ## monthly_results handler lemmas -/

theorem monthly_results_some (db : DB) (month country : String) (cd : CountryInfo)
    (h : dictLookup COUNTRY_DATA country = some cd) :
    monthly_results db month country = some
      { month := month
        country := country
        total_kwh := (monthly_results_agg db.appliances db.daily_consumptions month).2
        total_cost :=
          (monthly_results_agg db.appliances db.daily_consumptions month).2 * cd.cost_per_kwh
        carbon_footprint :=
          (monthly_results_agg db.appliances db.daily_consumptions month).2 * 0.5
        monthly_totals :=
          (monthly_results_agg db.appliances db.daily_consumptions month).1.monthly_totals
        daily_max_consumers :=
          (monthly_results_agg db.appliances db.daily_consumptions month).1.daily_max_consumers } := by
  simp [monthly_results, h]

theorem monthly_results_none (db : DB) (month country : String)
    (h : dictLookup COUNTRY_DATA country = none) :
    monthly_results db month country = none := by
  simp [monthly_results, h]

/-! ## The claims -/

/-- Claim C4: deleting a nonexistent appliance id fails with NotFound (404)
and leaves the store unchanged; deleting an existing id succeeds with a
redirect.  (app.py lines 87-92, `get_or_404`.) -/
theorem C4_delete_not_found (db : DB) (i : Nat) :
    ((∀ a ∈ db.appliances, a.id ≠ i) →
      delete_appliance db i = (DeleteResponse.notFound, db)) ∧
    ((∃ a ∈ db.appliances, a.id = i) →
      (delete_appliance db i).1 = DeleteResponse.redirect) := by
  constructor
  · intro h
    have hf : db.appliances.find? (fun a => a.id = i) = none := by
      rw [List.find?_eq_none]
      intro a ha
      simp [h a ha]
    unfold delete_appliance
    rw [hf]
  · intro h
    have hf : (db.appliances.find? (fun a => a.id = i)).isSome := by
      rw [List.find?_isSome]
      obtain ⟨a, ha, hai⟩ := h
      exact ⟨a, ha, by simp [hai]⟩
    obtain ⟨a0, ha0⟩ := Option.isSome_iff_exists.1 hf
    unfold delete_appliance
    rw [ha0]

/-- Claim C6: the monthly report prices the month's total at the selected
country's tariff and a fixed 0.5 kg/kWh emission factor, and the spec's June
example (one 0.75 kWh entry, USA at 0.15) yields total_cost 0.1125 and
carbon_footprint 0.375.  (app.py lines 184-187.) -/
theorem C6_cost_carbon (db : DB) (month country : String) (cd : CountryInfo)
    (h : dictLookup COUNTRY_DATA country = some cd) :
    (∃ r, monthly_results db month country = some r ∧
      r.total_kwh = (monthly_results_agg db.appliances db.daily_consumptions month).2 ∧
      r.total_cost = r.total_kwh * cd.cost_per_kwh ∧
      r.carbon_footprint = r.total_kwh * 0.5) ∧
    (∃ r, monthly_results ⟨[⟨1, "Fridge", 150⟩], [⟨1, "2024-06-01", 1, 5, 0.75⟩], 2, 2⟩
        "2024-06" "USA" = some r ∧
      r.total_kwh = 0.75 ∧ r.total_cost = 0.1125 ∧ r.carbon_footprint = 0.375) := by
  constructor
  · exact ⟨_, monthly_results_some db month country cd h, rfl, rfl, rfl⟩
  · refine ⟨_, monthly_results_some _ "2024-06" "USA" ⟨120, 60, 0.15⟩ rfl, ?_, ?_, ?_⟩ <;>
      with_unfolding_all decide

/-- Witness for C6 at a concrete store and country. -/
theorem C6_cost_carbon_witness :
    ∃ r, monthly_results ⟨[], [], 1, 1⟩ "2024-06" "India" = some r ∧
      r.total_kwh = (monthly_results_agg ([] : List Appliance) ([] : List DailyConsumption)
        "2024-06").2 ∧
      r.total_cost = r.total_kwh * (0.08 : ℚ) ∧
      r.carbon_footprint = r.total_kwh * 0.5 :=
  (C6_cost_carbon ⟨[], [], 1, 1⟩ "2024-06" "India" ⟨230, 50, 0.08⟩ rfl).1

/-- Claim C8 counterexample: the POST handler of `/appliance-setup` performs
no positivity validation (app.py lines 71-79 parse `power_watts` and insert
unconditionally), so a non-positive power still creates an appliance —
refuting the claim that it does not. -/
theorem C8_no_validation_counterexample :
    (appliance_setup_post ⟨[], [], 1, 1⟩ "Heater" (-500)).appliances =
      [⟨1, "Heater", -500⟩] ∧ ¬(0 < (-500 : ℚ)) := by
  constructor
  · rfl
  · with_unfolding_all decide

/-- Claim C8 as amended: the handler validates nothing beyond float parsing;
every submission, including one with zero or negative power_watts, appends a
new appliance with exactly the submitted power. -/
theorem C8_no_validation_amended (db : DB) (n : String) (p : ℚ) (hp : p ≤ 0) :
    (appliance_setup_post db n p).appliances.length = db.appliances.length + 1 ∧
    (⟨db.nextApplianceId, n, p⟩ : Appliance) ∈ (appliance_setup_post db n p).appliances := by
  constructor
  · simp [appliance_setup_post]
  · simp [appliance_setup_post]

/-- Witness for C8's amended claim at a concrete store. -/
theorem C8_no_validation_amended_witness :
    (appliance_setup_post ⟨[], [], 1, 1⟩ "Heater" (-500)).appliances.length = 0 + 1 ∧
    (⟨1, "Heater", -500⟩ : Appliance) ∈ (appliance_setup_post ⟨[], [], 1, 1⟩ "Heater" (-500)).appliances :=
  C8_no_validation_amended ⟨[], [], 1, 1⟩ "Heater" (-500) (by with_unfolding_all decide)

/-- Claim C10: a country outside the static tariff table makes
`/monthly-results` fail on the `COUNTRY_DATA[country]` lookup (no report),
and every one of the table's ten keys renders a report.
(app.py lines 12-23 and 185.) -/
theorem C10_unknown_country (db : DB) (month country : String) :
    (country ∉ COUNTRY_DATA.map Prod.fst → monthly_results db month country = none) ∧
    (country ∈ COUNTRY_DATA.map Prod.fst → ∃ r, monthly_results db month country = some r) ∧
    COUNTRY_DATA.map Prod.fst =
      ["USA", "Canada", "UK", "Germany", "France", "Australia", "Japan", "India",
       "China", "Brazil"] := by
  refine ⟨?_, ?_, rfl⟩
  · intro h
    exact monthly_results_none db month country ((dictLookup_eq_none_iff _ _).2 h)
  · intro h
    cases hc : dictLookup COUNTRY_DATA country with
    | none => exact absurd ((dictLookup_eq_none_iff _ _).1 hc) (by simpa using h)
    | some cd => exact ⟨_, monthly_results_some db month country cd hc⟩

/-- Claim C1: for a daily-input submission logging H > 0 hours for appliance
`a` on date D, the stored row for (D, a.id) has hours_used = H and
consumption_kwh = power_watts × H / 1000 (app.py line 109); and
consumption_kwh is only ever written together with hours_used by that
formula — every operation preserves `WellFormed`, so it is never
independently edited. -/
theorem C1_consumption_formula (db : DB) (date_str : String)
    (form : List (Nat × ℚ)) (a : Appliance) (hmem : a ∈ db.appliances)
    (hids : ((db.appliances.map (fun x => x.id))).Nodup)
    (hpos : 0 < getFormHours form a.id)
    (hinv : AtMostOnePerPair db.daily_consumptions) :
    (∃ i, (daily_input_post db date_str form).daily_consumptions.filter
        (isPairB date_str a.id) =
      [⟨i, date_str, a.id, getFormHours form a.id,
        a.power_watts * getFormHours form a.id / 1000⟩]) ∧
    (∀ (db' : DB) (n : String) (p : ℚ), WellFormed db' →
      WellFormed (appliance_setup_post db' n p)) ∧
    (∀ (db' : DB) (i : Nat), WellFormed db' →
      WellFormed (delete_appliance db' i).2) ∧
    (∀ (db' : DB) (d : String) (f : List (Nat × ℚ)), WellFormed db' →
      WellFormed (daily_input_post db' d f)) := by
  refine ⟨?_, appliance_setup_post_wellFormed, delete_appliance_wellFormed,
    daily_input_post_wellFormed⟩
  have hne : db.appliances ≠ [] := by
    intro hh
    rw [hh] at hmem
    simp at hmem
  rw [daily_input_post_daily db date_str form hne]
  exact foldl_dailyStep_self date_str form db.appliances _ a hmem hids hpos
    (hinv date_str a.id)

/-- Witness for C1: a 100 W appliance logged 3 hours stores 0.3 kWh. -/
theorem C1_consumption_formula_witness :
    ∃ i, (daily_input_post ⟨[⟨1, "Lamp", 100⟩], [], 2, 1⟩ "2024-06-02"
        [(1, 3)]).daily_consumptions.filter (isPairB "2024-06-02" 1) =
      [⟨i, "2024-06-02", 1, getFormHours [(1, 3)] 1,
        (100 : ℚ) * getFormHours [(1, 3)] 1 / 1000⟩] :=
  (C1_consumption_formula ⟨[⟨1, "Lamp", 100⟩], [], 2, 1⟩ "2024-06-02" [(1, 3)]
    ⟨1, "Lamp", 100⟩ (List.mem_singleton_self _) (by simp)
    (by with_unfolding_all decide)
    (by
      intro d aid
      simp [countPair])).1

/-- Claim C2: with positive submitted hours, submitting the same form twice
for the same date leaves exactly one row for the (date, appliance_id) pair,
carrying the second submission's values (app.py lines 111-126 update the
first matching row in place); and the at-most-one-row-per-pair invariant is
preserved by every operation of the store. -/
theorem C2_upsert_idempotent (db : DB) (date_str : String)
    (form : List (Nat × ℚ)) (a : Appliance) (hmem : a ∈ db.appliances)
    (hids : ((db.appliances.map (fun x => x.id))).Nodup)
    (hpos : 0 < getFormHours form a.id)
    (hinv : AtMostOnePerPair db.daily_consumptions) :
    countPair (daily_input_post (daily_input_post db date_str form) date_str
        form).daily_consumptions date_str a.id = 1 ∧
    (∃ i, (daily_input_post (daily_input_post db date_str form) date_str
        form).daily_consumptions.filter (isPairB date_str a.id) =
      [⟨i, date_str, a.id, getFormHours form a.id,
        a.power_watts * getFormHours form a.id / 1000⟩]) ∧
    (∀ (db' : DB) (d : String) (f : List (Nat × ℚ)),
      AtMostOnePerPair db'.daily_consumptions →
      AtMostOnePerPair (daily_input_post db' d f).daily_consumptions) ∧
    (∀ (db' : DB) (n : String) (p : ℚ),
      AtMostOnePerPair db'.daily_consumptions →
      AtMostOnePerPair (appliance_setup_post db' n p).daily_consumptions) ∧
    (∀ (db' : DB) (i : Nat),
      AtMostOnePerPair db'.daily_consumptions →
      AtMostOnePerPair (delete_appliance db' i).2.daily_consumptions) := by
  have hne : db.appliances ≠ [] := by
    intro hh
    rw [hh] at hmem
    simp at hmem
  have happ1 : (daily_input_post db date_str form).appliances = db.appliances :=
    daily_input_post_appliances db date_str form
  have hinv1 : AtMostOnePerPair (daily_input_post db date_str form).daily_consumptions :=
    daily_input_post_atMostOne db date_str form hinv
  have hne1 : (daily_input_post db date_str form).appliances ≠ [] := by
    rw [happ1]
    exact hne
  have hfil : ∃ i, (daily_input_post (daily_input_post db date_str form) date_str
      form).daily_consumptions.filter (isPairB date_str a.id) =
      [⟨i, date_str, a.id, getFormHours form a.id,
        a.power_watts * getFormHours form a.id / 1000⟩] := by
    rw [daily_input_post_daily _ date_str form hne1, happ1]
    exact foldl_dailyStep_self date_str form db.appliances _ a hmem hids hpos
      (hinv1 date_str a.id)
  refine ⟨?_, hfil, daily_input_post_atMostOne, ?_, delete_appliance_atMostOne⟩
  · obtain ⟨i, hi⟩ := hfil
    unfold countPair
    rw [hi]
    rfl
  · intro db' n p h
    exact h

/-- Witness for C2: submitting 3 hours for the 100 W lamp twice stores one
row of 0.3 kWh. -/
theorem C2_upsert_idempotent_witness :
    countPair (daily_input_post (daily_input_post ⟨[⟨1, "Lamp", 100⟩], [], 2, 1⟩
      "2024-06-02" [(1, 3)]) "2024-06-02" [(1, 3)]).daily_consumptions
      "2024-06-02" 1 = 1 :=
  (C2_upsert_idempotent ⟨[⟨1, "Lamp", 100⟩], [], 2, 1⟩ "2024-06-02" [(1, 3)]
    ⟨1, "Lamp", 100⟩ (List.mem_singleton_self _) (by simp)
    (by with_unfolding_all decide)
    (by
      intro d aid
      simp [countPair])).1

/-- Claim C3: deleting an existing appliance removes exactly the
DailyConsumption rows referencing it (the `cascade="all, delete-orphan"`
relationship, app.py lines 33-38) and exactly that appliance, leaving every
other row and appliance in place. -/
theorem C3_cascade_delete (db : DB) (i : Nat)
    (h : ∃ a ∈ db.appliances, a.id = i) :
    (∀ dc : DailyConsumption,
      dc ∈ (delete_appliance db i).2.daily_consumptions ↔
        dc ∈ db.daily_consumptions ∧ dc.appliance_id ≠ i) ∧
    (∀ a : Appliance,
      a ∈ (delete_appliance db i).2.appliances ↔
        a ∈ db.appliances ∧ a.id ≠ i) := by
  have hf : (db.appliances.find? (fun a => a.id = i)).isSome := by
    rw [List.find?_isSome]
    obtain ⟨a, ha, hai⟩ := h
    exact ⟨a, ha, by simp [hai]⟩
  obtain ⟨a0, ha0⟩ := Option.isSome_iff_exists.1 hf
  unfold delete_appliance
  rw [ha0]
  constructor
  · intro dc
    simp [List.mem_filter]
  · intro a
    simp [List.mem_filter]

/-- Witness for C3: deleting appliance 1 removes its row and keeps
appliance 2 with its row. -/
theorem C3_cascade_delete_witness :
    (∀ dc : DailyConsumption,
      dc ∈ (delete_appliance ⟨[⟨1, "Lamp", 100⟩, ⟨2, "TV", 50⟩],
        [⟨1, "2024-06-01", 1, 2, 0.2⟩, ⟨2, "2024-06-01", 2, 1, 0.05⟩], 3, 3⟩
        1).2.daily_consumptions ↔
        dc ∈ [⟨1, "2024-06-01", 1, 2, (0.2 : ℚ)⟩,
          ⟨2, "2024-06-01", 2, 1, (0.05 : ℚ)⟩] ∧ dc.appliance_id ≠ 1) ∧
    (∀ a : Appliance,
      a ∈ (delete_appliance ⟨[⟨1, "Lamp", 100⟩, ⟨2, "TV", 50⟩],
        [⟨1, "2024-06-01", 1, 2, 0.2⟩, ⟨2, "2024-06-01", 2, 1, 0.05⟩], 3, 3⟩
        1).2.appliances ↔
        a ∈ [⟨1, "Lamp", (100 : ℚ)⟩, ⟨2, "TV", (50 : ℚ)⟩] ∧ a.id ≠ 1) :=
  C3_cascade_delete ⟨[⟨1, "Lamp", 100⟩, ⟨2, "TV", 50⟩],
    [⟨1, "2024-06-01", 1, 2, 0.2⟩, ⟨2, "2024-06-01", 2, 1, 0.05⟩], 3, 3⟩ 1
    ⟨⟨1, "Lamp", 100⟩, List.mem_cons_self _ _, rfl⟩

/-- Claim C5 counterexample: with a single 0 W appliance named "X" and one
row of 0 kWh on 2024-06-01, the code stores ("", 0) for that date — not
("X", 0), the appliance with the (vacuously) strictly greatest consumption:
the loop of app.py lines 171-180 starts from `day_max_appliance = ""` and
only replaces it on a strict increase over 0. -/
theorem C5_daily_max_counterexample :
    dictLookup ((monthly_results_agg [⟨1, "X", 0⟩]
        [⟨1, "2024-06-01", 1, 5, 0⟩] "2024-06").1.daily_max_consumers)
      "2024-06-01" = some ("", 0) ∧
    ("", (0 : ℚ)) ≠ ("X", (0 : ℚ)) := by
  constructor
  · decide
  · decide

/-- Claim C5 as amended: for each date with at least one row,
`daily_max_consumers` maps the date to (name, value) where value is the
day's maximum consumption_kwh when that maximum is positive and name is the
name of the first-encountered row attaining it (ties broken in favour of the
first-encountered entry); when every row of the date has
consumption_kwh ≤ 0, the stored pair is ("", 0) rather than a true argmax. -/
theorem C5_daily_max_amended (apps : List Appliance)
    (dcs : List DailyConsumption) (month d : String) :
    (∀ (m : ℚ) (dcw : DailyConsumption),
      (∀ dc ∈ dayRows (monthFilter dcs month) d, dc.consumption_kwh ≤ m) →
      (dayRows (monthFilter dcs month) d).find?
        (fun dc => dc.consumption_kwh == m) = some dcw →
      0 < m →
      dictLookup ((monthly_results_agg apps dcs month).1.daily_max_consumers) d =
        some (applianceName apps dcw.appliance_id, m)) ∧
    ((dayRows (monthFilter dcs month) d) ≠ [] →
      (∀ dc ∈ dayRows (monthFilter dcs month) d, dc.consumption_kwh ≤ 0) →
      dictLookup ((monthly_results_agg apps dcs month).1.daily_max_consumers) d =
        some ("", 0)) := by
  constructor
  · intro m dcw hub hfind hpos
    have hdcw : dcw ∈ dayRows (monthFilter dcs month) d :=
      List.mem_of_find?_eq_some hfind
    have hd : d ∈ distinctDates (monthFilter dcs month) := by
      rw [mem_distinctDates]
      have hm := List.mem_filter.1 hdcw
      exact ⟨dcw, hm.1, by simpa using hm.2⟩
    rw [monthly_results_agg_dmc apps dcs month d hd]
    unfold dayMaxFold
    rw [foldl_maxStep_find apps _ m ("", 0) hub dcw hfind hpos]
  · intro hne hub
    obtain ⟨dc0, hdc0⟩ := List.exists_mem_of_ne_nil _ hne
    have hd : d ∈ distinctDates (monthFilter dcs month) := by
      rw [mem_distinctDates]
      have hm := List.mem_filter.1 hdc0
      exact ⟨dc0, hm.1, by simpa using hm.2⟩
    rw [monthly_results_agg_dmc apps dcs month d hd]
    unfold dayMaxFold
    rw [foldl_maxStep_const apps _ ("", 0) hub]

/-- Claim C7: a month with no rows never fails: every registered appliance
totals 0, total_monthly_kwh = 0, daily_max_consumers is empty and
most_frequent_max is (None, 0) (app.py lines 159-187, 230-234; all four
outputs are total functions of the store). -/
theorem C7_empty_month (db : DB) (month : String)
    (h : monthFilter db.daily_consumptions month = []) :
    (∀ a ∈ db.appliances,
      dictLookup ((monthly_results_agg db.appliances db.daily_consumptions
        month).1.monthly_totals) a.name = some 0) ∧
    (monthly_results_agg db.appliances db.daily_consumptions month).2 = 0 ∧
    (monthly_results_agg db.appliances db.daily_consumptions
      month).1.daily_max_consumers = [] ∧
    most_frequent_max (appliance_days_of (daily_analysis_dmc db.appliances
      db.daily_consumptions month)) = (none, 0) := by
  have hagg : monthly_results_agg db.appliances db.daily_consumptions month =
      (⟨initTotals db.appliances, []⟩, sumValues (initTotals db.appliances)) := by
    unfold monthly_results_agg
    rw [h]
    rfl
  refine ⟨?_, ?_, ?_, ?_⟩
  · intro a ha
    rw [hagg]
    exact initTotals_lookup db.appliances a ha
  · rw [hagg]
    exact sumValues_initTotals db.appliances
  · rw [hagg]
  · unfold daily_analysis_dmc
    rw [h]
    rfl

/-- Witness for C7: one registered appliance, one May row, June queried. -/
theorem C7_empty_month_witness :
    dictLookup ((monthly_results_agg
        (DB.mk [⟨1, "Lamp", 100⟩] [⟨1, "2024-05-01", 1, 2, 0.2⟩] 2 2).appliances
        (DB.mk [⟨1, "Lamp", 100⟩] [⟨1, "2024-05-01", 1, 2, 0.2⟩] 2 2).daily_consumptions
        "2024-06").1.monthly_totals) (Appliance.mk 1 "Lamp" 100).name = some 0 ∧
    (monthly_results_agg
        (DB.mk [⟨1, "Lamp", 100⟩] [⟨1, "2024-05-01", 1, 2, 0.2⟩] 2 2).appliances
        (DB.mk [⟨1, "Lamp", 100⟩] [⟨1, "2024-05-01", 1, 2, 0.2⟩] 2 2).daily_consumptions
        "2024-06").2 = 0 :=
  let db : DB := DB.mk [⟨1, "Lamp", 100⟩] [⟨1, "2024-05-01", 1, 2, 0.2⟩] 2 2
  have h := C7_empty_month db "2024-06" (by with_unfolding_all decide)
  ⟨h.1 ⟨1, "Lamp", 100⟩ (List.mem_singleton_self _), h.2.1⟩

/-- Claim C9: an appliance whose submitted hours value is 0, negative, or
absent (absent defaults to 0, app.py line 107) is skipped by the
`hours_used > 0` guard (line 108): every stored row referencing that
appliance — in particular the (date, appliance_id) row with its previous
hours_used and consumption_kwh — survives the POST unchanged. -/
theorem C9_nonpositive_hours_skipped (db : DB) (date_str : String)
    (form : List (Nat × ℚ)) (a : Appliance) (hmem : a ∈ db.appliances)
    (hids : ((db.appliances.map (fun x => x.id))).Nodup)
    (hnp : getFormHours form a.id ≤ 0) :
    ((daily_input_post db date_str form).daily_consumptions.filter
        (fun dc => dc.appliance_id == a.id) =
      db.daily_consumptions.filter (fun dc => dc.appliance_id == a.id)) ∧
    (dictLookup form a.id = none → getFormHours form a.id = 0) := by
  constructor
  · have hne : db.appliances ≠ [] := by
      intro hh
      rw [hh] at hmem
      simp at hmem
    obtain ⟨l1, l2, happ⟩ := List.append_of_mem hmem
    obtain ⟨h1, h2⟩ := nodup_split_ids l1 l2 a (by rw [← happ]; exact hids)
    have hP : ∀ b : Appliance, b.id ≠ a.id → ∀ dc : DailyConsumption,
        isPairB date_str b.id dc = true → (dc.appliance_id == a.id) = false := by
      intro b hb dc hdc
      rw [isPairB_eq_true_iff] at hdc
      rw [beq_eq_false_iff_ne, hdc.2]
      exact hb
    rw [daily_input_post_daily db date_str form hne, happ, List.foldl_append,
        List.foldl_cons, dailyStep_nonpos _ _ _ _ hnp,
        foldl_dailyStep_filter_frame date_str form l2 _ _
          (fun b hb => hP b (h2 b hb)),
        foldl_dailyStep_filter_frame date_str form l1 _ _
          (fun b hb => hP b (h1 b hb))]
  · intro h
    unfold getFormHours
    rw [h]
    rfl

/-- Witness for C9: appliance 1 absent from the form keeps its earlier
0.4 kWh row while appliance 2 is being logged. -/
theorem C9_nonpositive_hours_skipped_witness :
    (daily_input_post ⟨[⟨1, "Lamp", 100⟩, ⟨2, "TV", 50⟩],
        [⟨5, "2024-06-02", 1, 4, 0.4⟩], 3, 6⟩ "2024-06-02"
        [(2, 3)]).daily_consumptions.filter (fun dc => dc.appliance_id == 1) =
      ([⟨5, "2024-06-02", 1, 4, 0.4⟩] : List DailyConsumption).filter
        (fun dc => dc.appliance_id == 1) :=
  (C9_nonpositive_hours_skipped ⟨[⟨1, "Lamp", 100⟩, ⟨2, "TV", 50⟩],
    [⟨5, "2024-06-02", 1, 4, 0.4⟩], 3, 6⟩ "2024-06-02" [(2, 3)]
    ⟨1, "Lamp", 100⟩ (List.mem_cons_self _ _) (by simp)
    (by with_unfolding_all decide)).1

end TariffCalc
